import Mathlib

/-!
Verification of the multipart image-upload pipeline of the `air_sdk` client
library (`air_sdk/helpers/image_upload.py`, `air_sdk/utils.py`,
`air_sdk/const.py`).

The Python source is shallowly embedded: pure functions become Lean
functions; the retry loop, the upload coordinator and the `FilePartReader`
stream become explicit state-passing functions parameterised by the outcome
of every external effect (HTTP responses, raised exceptions, worker-pool
completion order).  Machine integers are modelled by `Int`/`Nat` (Python
integers are arbitrary precision, so no modular wrap-around occurs).
-/

deriving instance DecidableEq for Except

/-! ## Constants (`air_sdk/const.py`) -/

/-- Constant `DEFAULT_RETRY_ATTEMPTS` from `const.py`. -/
def DEFAULT_RETRY_ATTEMPTS : Nat := 5

/-- Constant `DEFAULT_RETRY_BACKOFF_FACTOR` from `const.py` (the Python
float `1.0`, represented exactly as a rational). -/
def DEFAULT_RETRY_BACKOFF_FACTOR : ℚ := 1

/-- Constant `MULTIPART_CHUNK_SIZE` from `const.py` (100 MB). -/
def MULTIPART_CHUNK_SIZE : Int := 100 * 1000 * 1000

/-- Constant `MULTIPART_MIN_PART_SIZE` from `const.py` (5 MiB). -/
def MULTIPART_MIN_PART_SIZE : Int := 5 * 1024 * 1024

/-! ## Part planning (`calculate_parts_info`, `image_upload.py` 331-387) -/

/-- One entry of the list returned by `calculate_parts_info`: the dict
`{'part_number': ..., 'start': ..., 'size': ...}`. -/
structure PartInfo where
  part_number : Int
  start : Int
  size : Int
deriving Repr, DecidableEq

/-- The `AirUnexpectedResponse` raised by `calculate_parts_info`, tagged by
which of the two validations fired (part number and offending size). -/
inductive PlanError where
  | invalidSize (part_number : Int) (size : Int)
  | belowMin (part_number : Int) (size : Int)
deriving Repr, DecidableEq

/-- The body of the `for i in range(num_parts)` loop of
`calculate_parts_info`, run for attempts `i, i+1, ...` with `rem + 1`
iterations remaining (so the call site maintains `i + rem + 1 = num_parts`,
making `rem = 0` exactly the `is_last_part` iteration `i == num_parts - 1`,
which is also how the code itself tests it). -/
def calcParts (file_size chunk_size : Int) (num_parts : Nat) :
    (i rem : Nat) → Except PlanError (List PartInfo)
  | _, 0 => .ok []
  | i, rem + 1 =>
    let part_number : Int := (i : Int) + 1
    let start : Int := (i : Int) * chunk_size
    let size : Int := if i = num_parts - 1 then file_size - start else chunk_size
    if size ≤ 0 then
      .error (.invalidSize part_number size)
    else if i ≠ num_parts - 1 ∧ size < MULTIPART_MIN_PART_SIZE then
      .error (.belowMin part_number size)
    else do
      let rest ← calcParts file_size chunk_size num_parts (i + 1) rem
      pure ({ part_number := part_number, start := start, size := size } :: rest)

/-- Embedding of `calculate_parts_info(file_size, num_parts, chunk_size)`
(`image_upload.py` 331-387).  `num_parts` is `len(part_urls)`, hence a
`Nat`.  Errors are the raised `AirUnexpectedResponse` exceptions. -/
def calculate_parts_info (file_size : Int) (num_parts : Nat) (chunk_size : Int) :
    Except PlanError (List PartInfo) :=
  if num_parts = 0 then .ok []
  else calcParts file_size chunk_size num_parts 0 num_parts

/-! ## Single-part upload with retries (`upload_single_part`,
`image_upload.py` 85-198)

The HTTP transport is abstracted by the outcome each attempt of the loop
observes: either an HTTP response (status and optional `ETag` header) from
`requests.put`, or a retryable exception (`ConnectionError` / `Timeout` /
`ChunkedEncodingError`), or any other exception (file errors and the like,
re-raised by the bare `except Exception: raise` arm). -/

/-- Outcome of one attempt of the transport inside `upload_single_part`. -/
inductive TransportOutcome where
  | response (status : Nat) (etagHeader : Option String)
  | retryableExc (msg : String)
  | fatalExc (msg : String)
deriving Repr, DecidableEq

/-- Errors raised out of `upload_single_part`: `AirUnexpectedResponse` from
`raise_if_invalid_response` (carrying the status), the missing-ETag
`AirUnexpectedResponse`, a re-raised transport exception, a re-raised
non-retryable exception, or the unreachable after-loop
`AirUnexpectedResponse` (`failed after N attempts`). -/
inductive UploadFailure where
  | invalidResponse (status : Nat)
  | missingEtag
  | transportError (msg : String)
  | fatalOther (msg : String)
  | exhausted
deriving Repr, DecidableEq

/-- The dict `{'part_number': ..., 'etag': ...}` returned on success. -/
structure UploadedPart where
  part_number : Int
  etag : String
deriving Repr, DecidableEq

/-- Observable result of one `upload_single_part` call: how many attempts
ran, the `time.sleep` durations in order, and the returned dict or raised
exception. -/
structure PartUploadRun where
  attempts : Nat
  sleeps : List ℚ
  result : Except UploadFailure UploadedPart
deriving Repr, DecidableEq

/-- The transient HTTP statuses retried by `upload_single_part`
(`image_upload.py` 141). -/
def isRetryableStatus (s : Nat) : Bool :=
  s = 429 ∨ s = 502 ∨ s = 503 ∨ s = 504

/-- The double-quote character, for modelling Python `.strip` of the `ETag`
header value. -/
def quoteChar : Char := Char.ofNat 34

/-- Python `str.strip` of all leading and trailing double quotes, as in
`upload_response.headers.get(ETag, ...).strip(...)`. -/
def stripQuotes (s : String) : String :=
  String.mk (((s.data.dropWhile (· = quoteChar)).reverse.dropWhile (· = quoteChar)).reverse)

/-- The `for attempt in range(max_retries)` loop of `upload_single_part`,
at attempt `i` with `rem + 1` iterations remaining (call sites maintain
`i + rem + 1 = max_retries`, so `0 < rem` is the code's
`attempt < max_retries - 1` test and the `rem = 0` base case is the
code after the loop, reachable only when `max_retries = 0`).  Each branch
mirrors the source: a retryable status or retryable exception sleeps
`DEFAULT_RETRY_BACKOFF_FACTOR * 2 ** attempt` and continues when attempts
remain, and otherwise raises (`last_exception`, or
`raise_if_invalid_response` on the retryable status of the final attempt);
a non-retryable status raises via `raise_if_invalid_response`; a 200
response returns the stripped `ETag` or raises if it is empty; any other
exception propagates at once. -/
def uploadLoop (outcomes : Nat → TransportOutcome) (part_number : Int) :
    (i rem : Nat) → PartUploadRun
  | _, 0 => ⟨0, [], .error .exhausted⟩
  | i, rem + 1 =>
    match outcomes i with
    | .response status etagHeader =>
      if isRetryableStatus status then
        if 0 < rem then
          let rest := uploadLoop outcomes part_number (i + 1) rem
          ⟨rest.attempts + 1, DEFAULT_RETRY_BACKOFF_FACTOR * 2 ^ i :: rest.sleeps, rest.result⟩
        else
          ⟨1, [], .error (.invalidResponse status)⟩
      else if status ≠ 200 then
        ⟨1, [], .error (.invalidResponse status)⟩
      else
        let etag := stripQuotes (etagHeader.getD "")
        if etag = "" then
          ⟨1, [], .error .missingEtag⟩
        else
          ⟨1, [], .ok ⟨part_number, etag⟩⟩
    | .retryableExc msg =>
      if 0 < rem then
        let rest := uploadLoop outcomes part_number (i + 1) rem
        ⟨rest.attempts + 1, DEFAULT_RETRY_BACKOFF_FACTOR * 2 ^ i :: rest.sleeps, rest.result⟩
      else
        ⟨1, [], .error (.transportError msg)⟩
    | .fatalExc msg => ⟨1, [], .error (.fatalOther msg)⟩

/-- Embedding of `upload_single_part` (`image_upload.py` 85-198) as the
observable run it produces for a given sequence of transport outcomes. -/
def upload_single_part_run (outcomes : Nat → TransportOutcome) (part_number : Int)
    (max_retries : Nat) : PartUploadRun :=
  uploadLoop outcomes part_number 0 max_retries

/-- Whether an attempt outcome is classified retryable by the loop. -/
def retryableOutcome : TransportOutcome → Bool
  | .response status _ => isRetryableStatus status
  | .retryableExc _ => true
  | .fatalExc _ => false

/-- The error raised when retries are exhausted, as a function of the final
attempt's (retryable) outcome: the last retryable exception, or the
invalid-response error for the final retryable HTTP status. -/
def finalRetryFailure : TransportOutcome → UploadFailure
  | .response status _ => .invalidResponse status
  | .retryableExc msg => .transportError msg
  | .fatalExc msg => .fatalOther msg

example :
    upload_single_part_run (fun _ => .retryableExc "timeout") 1 3 =
      ⟨3, [DEFAULT_RETRY_BACKOFF_FACTOR * 2 ^ 0, DEFAULT_RETRY_BACKOFF_FACTOR * 2 ^ 1],
       .error (.transportError "timeout")⟩ := by rfl
example :
    upload_single_part_run (fun _ => .response 503 none) 1 2 =
      ⟨2, [DEFAULT_RETRY_BACKOFF_FACTOR * 2 ^ 0], .error (.invalidResponse 503)⟩ := by rfl
example :
    upload_single_part_run (fun _ => .response 403 none) 1 5 =
      ⟨1, [], .error (.invalidResponse 403)⟩ := by rfl
example :
    upload_single_part_run (fun _ => .response 200 (some "\"\"")) 1 5 =
      ⟨1, [], .error .missingEtag⟩ := by rfl
example :
    upload_single_part_run (fun _ => .response 200 (some "\"abc\"")) 7 5 =
      ⟨1, [], .ok ⟨7, "abc"⟩⟩ := by rfl
example :
    upload_single_part_run
      (fun i => if i = 0 then .retryableExc "conn" else .response 200 (some "e")) 2 5 =
      ⟨2, [DEFAULT_RETRY_BACKOFF_FACTOR * 2 ^ 0], .ok ⟨2, "e"⟩⟩ := by rfl

/-! ## Parallel upload collection (`upload_parts_to_s3`,
`image_upload.py` 201-297)

The thread pool is abstracted by the order in which `as_completed` yields
the futures: the input is the list of `(part_number, future result)` pairs
in completion order.  The collection loop appends successful results,
and on the first failed future records it, cancels the rest and breaks. -/

/-- The ordering used by `uploaded_parts.sort(key=lambda x: x.part_number)`. -/
def partNumberLE (a b : UploadedPart) : Prop := a.part_number ≤ b.part_number

instance : DecidableRel partNumberLE := fun _ _ => Int.decLe _ _

instance : IsTotal UploadedPart partNumberLE := ⟨fun _ _ => Int.le_total _ _⟩

instance : IsTrans UploadedPart partNumberLE := ⟨fun _ _ _ => Int.le_trans⟩

/-- The `for future in as_completed(...)` collection loop: returns the
`uploaded_parts` successes gathered before any failure and the
`failed_parts` list (which the `break` keeps at length at most one). -/
def collectCompleted (completed : List (Int × Except String UploadedPart)) :
    List UploadedPart × List (Int × String) :=
  match completed with
  | [] => ([], [])
  | (_, .ok result) :: rest =>
    let (uploaded, failed) := collectCompleted rest
    (result :: uploaded, failed)
  | (part_number, .error e) :: _ => ([], [(part_number, e)])

/-- Embedding of the parallel (`max_workers > 1`) path of
`upload_parts_to_s3`: collect results in completion order, raise an
aggregate `AirUnexpectedResponse` if any part failed, otherwise sort the
collected parts by `part_number` and return them. -/
def upload_parts_to_s3_parallel (completed : List (Int × Except String UploadedPart)) :
    Except (List (Int × String)) (List UploadedPart) :=
  let (uploaded_parts, failed_parts) := collectCompleted completed
  if failed_parts ≠ [] then .error failed_parts
  else .ok (uploaded_parts.insertionSort partNumberLE)

/-- The `complete_payload = {'parts': uploaded_parts}` dict built by
`complete_multipart_upload` (`image_upload.py` 300-328). -/
structure CompletePayload where
  parts : List UploadedPart
deriving Repr, DecidableEq

/-- Payload construction of `complete_multipart_upload`: the uploaded
parts list is passed through verbatim under the `parts` key. -/
def complete_multipart_upload_payload (uploaded_parts : List UploadedPart) : CompletePayload :=
  { parts := uploaded_parts }

example :
    upload_parts_to_s3_parallel
      [(3, .ok ⟨3, "c"⟩), (1, .ok ⟨1, "a"⟩), (2, .ok ⟨2, "b"⟩)] =
      .ok [⟨1, "a"⟩, ⟨2, "b"⟩, ⟨3, "c"⟩] := by decide
example :
    upload_parts_to_s3_parallel
      [(3, .ok ⟨3, "c"⟩), (2, .error "boom"), (1, .ok ⟨1, "a"⟩)] =
      .error [(2, "boom")] := by decide

/-! ## Upload coordinator (`upload_image`, `image_upload.py` 390-507) and
abort (`abort_multipart_upload`, `image_upload.py` 45-82)

The coordinator is embedded as a function of the outcomes of its external
effects: the validated start-upload response, the outcome of
`upload_parts_to_s3`, the outcome of the complete-upload call, and the
outcome of the abort PATCH.  It returns the ordered trace of backend
session calls it makes, the number of warnings issued, and its result. -/

/-- Session calls issued against the backend by the coordinator. -/
inductive BackendCall where
  | startUpload
  | completeUpload
  | abortUpload
deriving Repr, DecidableEq

/-- The fields `upload_id`, `part_urls` and `chunk_size` read (with
`dict.get`) from the start-upload response JSON.  A `part_urls` entry is
the presigned URL string of the part dict. -/
structure StartUploadData where
  upload_id : Option String
  part_urls : List String
  chunk_size : Option Int
deriving Repr, DecidableEq

/-- Python truthiness of the `upload_id` value tested by
`if not upload_id` (both a missing key and an empty string are falsy). -/
def truthyId : Option String → Bool
  | none => false
  | some s => s ≠ ""

/-- Exceptions propagating out of `upload_image`, tagged by the step that
raised them (each carries the original error so re-raising unchanged is
observable). -/
inductive ImageUploadError where
  | startFailed (msg : String)
  | missingUploadId
  | missingPartUrls
  | planError (e : PlanError)
  | partsFailed (failed : List (Int × String))
  | completeFailed (msg : String)
deriving Repr, DecidableEq

/-- Embedding of `abort_multipart_upload` (`image_upload.py` 45-82) as the
number of warnings it issues: the abort PATCH either raises (warn) or
returns a status, warned about unless it is 204 No Content.  The function
itself never raises. -/
def abort_multipart_upload_warnings (abortOutcome : Except String Nat) : Nat :=
  match abortOutcome with
  | .error _ => 1
  | .ok status => if status = 204 then 0 else 1

/-- Observable run of one `upload_image` call. -/
structure ImageUploadRun where
  calls : List BackendCall
  warnings : Nat
  result : Except ImageUploadError Unit
deriving Repr, DecidableEq

/-- Embedding of `upload_image` (`image_upload.py` 390-507).
`startResp` is the outcome of the start-upload PATCH after
`raise_if_invalid_response` (errors there propagate before any session
data exists); on success the `upload_id` truthiness check runs before the
cleanup-protected `try` block, while the `part_urls` check, the planner,
`upload_parts_to_s3` (outcome `s3Result`) and `complete_multipart_upload`
(outcome `completeResult`) all run inside it, where any exception triggers
`abort_multipart_upload` and is then re-raised. -/
def upload_image_run (file_size : Int) (startResp : Except String StartUploadData)
    (s3Result : Except (List (Int × String)) (List UploadedPart))
    (completeResult : Except String Unit) (abortOutcome : Except String Nat) :
    ImageUploadRun :=
  match startResp with
  | .error msg => ⟨[.startUpload], 0, .error (.startFailed msg)⟩
  | .ok data =>
    if ¬truthyId data.upload_id then
      ⟨[.startUpload], 0, .error .missingUploadId⟩
    else if data.part_urls = [] then
      ⟨[.startUpload, .abortUpload], abort_multipart_upload_warnings abortOutcome,
       .error .missingPartUrls⟩
    else
      match calculate_parts_info file_size data.part_urls.length
          (data.chunk_size.getD MULTIPART_CHUNK_SIZE) with
      | .error e =>
        ⟨[.startUpload, .abortUpload], abort_multipart_upload_warnings abortOutcome,
         .error (.planError e)⟩
      | .ok _parts_info =>
        match s3Result with
        | .error failed =>
          ⟨[.startUpload, .abortUpload], abort_multipart_upload_warnings abortOutcome,
           .error (.partsFailed failed)⟩
        | .ok _uploaded_parts =>
          match completeResult with
          | .error msg =>
            ⟨[.startUpload, .completeUpload, .abortUpload],
             abort_multipart_upload_warnings abortOutcome, .error (.completeFailed msg)⟩
          | .ok _ => ⟨[.startUpload, .completeUpload], 0, .ok ()⟩

example :
    upload_image_run 100 (.ok ⟨some "sid", ["u1"], some 100⟩) (.ok [⟨1, "a"⟩]) (.ok ())
      (.ok 204) =
      ⟨[.startUpload, .completeUpload], 0, .ok ()⟩ := by decide
example :
    upload_image_run 100 (.ok ⟨none, ["u1"], some 100⟩) (.ok [⟨1, "a"⟩]) (.ok ())
      (.ok 204) =
      ⟨[.startUpload], 0, .error .missingUploadId⟩ := by decide
example :
    upload_image_run 100 (.ok ⟨some "sid", [], some 100⟩) (.ok []) (.ok ()) (.ok 204) =
      ⟨[.startUpload, .abortUpload], 0, .error .missingPartUrls⟩ := by decide
example :
    upload_image_run 100 (.ok ⟨some "sid", ["u1"], some 100⟩) (.error [(1, "x")]) (.ok ())
      (.error "net") =
      ⟨[.startUpload, .abortUpload], 1, .error (.partsFailed [(1, "x")])⟩ := by decide
example :
    upload_image_run 100 (.ok ⟨some "sid", ["u1"], some 100⟩) (.ok [⟨1, "a"⟩])
      (.error "500") (.ok 500) =
      ⟨[.startUpload, .completeUpload, .abortUpload], 1,
       .error (.completeFailed "500")⟩ := by decide

/-! ## File part reader (`FilePartReader`, `utils.py` 256-322)

The underlying binary file is modelled as its list of bytes; the open file
handle is its cursor position `pos` (advanced by the OS on every
`self.f.read`).  `remaining` and the immutable `size` field are `Int`
exactly as in the source (Python integers), and `read`'s `chunk_size`
argument may be negative (`-1` means read the rest). -/

/-- State of an entered `FilePartReader`: the file bytes, the constructor
fields `size` and `remaining`, and the file handle position. -/
structure FilePartReader where
  file : List Nat
  size : Int
  pos : Nat
  remaining : Int
deriving Repr, DecidableEq

/-- Embedding of `FilePartReader.__init__` plus `__enter__`: store `size`,
set `remaining = size`, open the file and seek to `start`. -/
def FilePartReader.enter (file : List Nat) (start : Nat) (size : Int) : FilePartReader :=
  { file := file, size := size, pos := start, remaining := size }

/-- Embedding of `FilePartReader.__len__`. -/
def FilePartReader.lenField (r : FilePartReader) : Int := r.size

/-- Embedding of `FilePartReader.read(chunk_size)`: return `b''` once the
window is exhausted; otherwise clamp `chunk_size` to `remaining` (a
negative `chunk_size` reads all of `remaining`), read at most that many
bytes from the handle (which also advances the cursor), and decrement
`remaining` by the number of bytes actually read. -/
def FilePartReader.read (r : FilePartReader) (chunk_size : Int) : List Nat × FilePartReader :=
  if r.remaining ≤ 0 then ([], r)
  else
    let chunk : Int := if chunk_size < 0 then r.remaining else min chunk_size r.remaining
    let data := (r.file.drop r.pos).take chunk.toNat
    (data, { r with pos := r.pos + data.length, remaining := r.remaining - data.length })

/-- Drive a reader through a whole sequence of `read` calls, concatenating
the returned byte strings. -/
def FilePartReader.readAll (r : FilePartReader) : List Int → List Nat × FilePartReader
  | [] => ([], r)
  | c :: cs =>
    let step := r.read c
    let rest := step.2.readAll cs
    (step.1 ++ rest.1, rest.2)

example :
    ((FilePartReader.enter [0, 1, 2, 3, 4, 5, 6, 7] 2 4).readAll [3, 3, 3]).1 =
      [2, 3, 4, 5] := by decide
example :
    ((FilePartReader.enter [0, 1, 2, 3, 4, 5, 6, 7] 2 4).readAll [-1]).1 =
      [2, 3, 4, 5] := by decide
example :
    ((FilePartReader.enter [0, 1, 2, 3, 4, 5, 6, 7] 2 4).readAll [3]).1 = [2, 3, 4] := by decide

/-- Spec-side abbreviation: the size the loop computes for 0-indexed part
`i` (the remainder for the last part, `chunk_size` otherwise). -/
def sizeAt (file_size chunk_size : Int) (num_parts : Nat) (i : Nat) : Int :=
  if i = num_parts - 1 then file_size - (i : Int) * chunk_size else chunk_size

/-- Spec-side description of the plan (part `i`, 0-indexed, starts at
`i * chunk_size`): `calculate_parts_info` returns exactly this list
whenever neither validation fires. -/
def planSpec (file_size chunk_size : Int) (num_parts : Nat) : List PartInfo :=
  (List.range num_parts).map fun (i : Nat) =>
    { part_number := (i : Int) + 1
      start := (i : Int) * chunk_size
      size := sizeAt file_size chunk_size num_parts i }

example : calculate_parts_info 12000000 3 5000000 = .error (.belowMin 1 5000000) := by decide
example :
    calculate_parts_info 12000000 3 5242880 =
      .ok [⟨1, 0, 5242880⟩, ⟨2, 5242880, 5242880⟩, ⟨3, 10485760, 1514240⟩] := by decide
example : calculate_parts_info 150 2 100 = .error (.belowMin 1 100) := by decide
example : calculate_parts_info 7 1 100 = .ok [⟨1, 0, 7⟩] := by decide
example : calculate_parts_info 0 1 100 = .error (.invalidSize 1 0) := by decide
example : calculate_parts_info 5 0 3 = .ok [] := by decide


/-! ## Planner lemmas -/

/-- Loop invariant, success direction: when every remaining part passes
both validations, the loop returns exactly the spec plan for the remaining
indices. -/
lemma calcParts_ok (fs cs : Int) (pc : Nat) :
    ∀ rem i, i + rem = pc →
      (∀ j, i ≤ j → j < pc →
        0 < sizeAt fs cs pc j ∧ (j ≠ pc - 1 → MULTIPART_MIN_PART_SIZE ≤ sizeAt fs cs pc j)) →
      calcParts fs cs pc i rem =
        .ok ((List.range' i rem).map fun (j : Nat) =>
          { part_number := (j : Int) + 1
            start := (j : Int) * cs
            size := sizeAt fs cs pc j }) := by
  intro rem
  induction rem with
  | zero => intro i _ _; rfl
  | succ rem ih =>
    intro i hi hgood
    have hipc : i < pc := by omega
    have hgi := hgood i (le_refl i) hipc
    simp only [sizeAt] at hgi
    simp only [calcParts]
    rw [if_neg (not_le.mpr hgi.1),
      if_neg (by rintro ⟨hne, hlt⟩; exact absurd (hgi.2 hne) (not_le.mpr hlt))]
    rw [ih (i + 1) (by omega) (fun j hj1 hj2 => hgood j (by omega) hj2)]
    rfl

/-- Loop invariant, error direction: if some remaining part fails a
validation, the loop raises (some) planning error. -/
lemma calcParts_error (fs cs : Int) (pc : Nat) :
    ∀ rem i, i + rem = pc →
      (∃ j, i ≤ j ∧ j < pc ∧
        (sizeAt fs cs pc j ≤ 0 ∨ (j ≠ pc - 1 ∧ sizeAt fs cs pc j < MULTIPART_MIN_PART_SIZE))) →
      ∃ e, calcParts fs cs pc i rem = .error e := by
  intro rem
  induction rem with
  | zero =>
    rintro i hi ⟨j, hj1, hj2, -⟩
    omega
  | succ rem ih =>
    rintro i hi ⟨j, hij, hjpc, hbad⟩
    simp only [calcParts]
    by_cases hb1 : (if i = pc - 1 then fs - (i : Int) * cs else cs) ≤ 0
    · rw [if_pos hb1]
      exact ⟨_, rfl⟩
    · rw [if_neg hb1]
      by_cases hb2 : i ≠ pc - 1 ∧ (if i = pc - 1 then fs - (i : Int) * cs else cs) <
          MULTIPART_MIN_PART_SIZE
      · rw [if_pos hb2]
        exact ⟨_, rfl⟩
      · rw [if_neg hb2]
        have hji : i ≠ j := by
          rintro rfl
          simp only [sizeAt] at hbad
          rcases hbad with hb | ⟨hne, hlt⟩
          · exact hb1 hb
          · exact hb2 ⟨hne, hlt⟩
        obtain ⟨e, he⟩ := ih (i + 1) (by omega) ⟨j, by omega, hjpc, hbad⟩
        rw [he]
        exact ⟨e, rfl⟩

/-- Loop invariant, inversion: every part of a successfully returned plan
has positive size, and at least the minimum size unless it is the last
part (the one with `part_number = num_parts`). -/
lemma calcParts_ok_inv (fs cs : Int) (pc : Nat) :
    ∀ rem i l, i + rem = pc → calcParts fs cs pc i rem = .ok l →
      ∀ p ∈ l, 0 < p.size ∧
        (p.part_number ≠ (pc : Int) → MULTIPART_MIN_PART_SIZE ≤ p.size) := by
  intro rem
  induction rem with
  | zero =>
    intro i l _ hl p hp
    simp only [calcParts] at hl
    cases hl
    simp at hp
  | succ rem ih =>
    intro i l hi hl p hp
    have hipc : i < pc := by omega
    simp only [calcParts] at hl
    by_cases hb1 : (if i = pc - 1 then fs - (i : Int) * cs else cs) ≤ 0
    · rw [if_pos hb1] at hl
      cases hl
    · rw [if_neg hb1] at hl
      by_cases hb2 : i ≠ pc - 1 ∧ (if i = pc - 1 then fs - (i : Int) * cs else cs) <
          MULTIPART_MIN_PART_SIZE
      · rw [if_pos hb2] at hl
        cases hl
      · rw [if_neg hb2] at hl
        cases hrec : calcParts fs cs pc (i + 1) rem with
        | error e =>
          rw [hrec] at hl
          cases hl
        | ok rest =>
          rw [hrec] at hl
          simp only [bind, Except.bind, pure, Except.pure, Except.ok.injEq] at hl
          subst hl
          rcases List.mem_cons.mp hp with rfl | hmem
          · refine ⟨not_le.mp hb1, fun hpn => ?_⟩
            have hpn2 : (i : Int) + 1 ≠ (pc : Int) := hpn
            have hne : i ≠ pc - 1 := by omega
            exact not_lt.mp (fun hlt => hb2 ⟨hne, hlt⟩)
          · exact ih (i + 1) rest (by omega) hrec p hmem

/-- Sum of the spec plan's sizes: the `num_parts - 1` chunk-sized parts
plus the remainder-sized last part add up to the file size. -/
lemma planSpec_sum (fs cs : Int) (pc : Nat) (hpc : 1 ≤ pc) :
    ((planSpec fs cs pc).map PartInfo.size).sum = fs := by
  obtain ⟨m, rfl⟩ : ∃ m, pc = m + 1 := ⟨pc - 1, by omega⟩
  simp only [planSpec, List.map_map]
  rw [List.range_succ, List.map_append, List.sum_append]
  have h1 : (List.range m).map
      (PartInfo.size ∘ fun (i : Nat) =>
        PartInfo.mk ((i : Int) + 1) ((i : Int) * cs) (sizeAt fs cs (m + 1) i)) =
      List.replicate m cs := by
    rw [List.map_congr_left (g := fun (_ : Nat) => cs) (fun i hi => ?_)]
    · simp
    · have him : i < m := List.mem_range.mp hi
      simp [sizeAt, Function.comp]
      omega
  rw [h1, List.sum_replicate, nsmul_eq_mul]
  have hlast : sizeAt fs cs (m + 1) m = fs - (m : Int) * cs := by
    simp [sizeAt]
  simp only [List.map_cons, List.map_nil, Function.comp, hlast, List.sum_cons, List.sum_nil]
  ring

/-! ## Planner claims -/

/-- Claim C3, counterexample: at `fileSize = 150`, `partCount = 2`,
`chunkSize = 100` every hypothesis of the claim holds
(`(2-1)*100 < 150 ≤ 2*100`, all positive), yet `calculate_parts_info`
does not return a plan: it raises the minimum-part-size planning error for
part 1, because the claim omits the 5 MiB minimum-size validation. -/
theorem claim_C3_counterexample :
    (0 : Int) < 150 ∧ 0 < (2 : Nat) ∧ (0 : Int) < 100 ∧
    (((2 : Nat) : Int) - 1) * 100 < 150 ∧ (150 : Int) ≤ ((2 : Nat) : Int) * 100 ∧
    calculate_parts_info 150 2 100 = .error (.belowMin 1 100) := by decide

/-- Claim C3 (amended: additionally `chunkSize` must be at least
`MULTIPART_MIN_PART_SIZE` unless `partCount = 1`, otherwise the code
raises the minimum-part-size error instead of returning): for all
`fileSize > 0`, `partCount > 0`, `chunkSize > 0` with
`(partCount-1)*chunkSize < fileSize ≤ partCount*chunkSize`,
`calculate_parts_info` returns exactly `partCount` parts, part `i`
(1-indexed) starts at `(i-1)*chunkSize`, every part except the last has
size `chunkSize`, the last part has size
`fileSize - (partCount-1)*chunkSize`, and the sizes sum to `fileSize`. -/
theorem claim_C3_partition (fs cs : Int) (pc : Nat)
    (_hfs : 0 < fs) (hpc : 0 < pc) (hcs : 0 < cs)
    (hlow : ((pc : Int) - 1) * cs < fs) (_hhigh : fs ≤ (pc : Int) * cs)
    (hmin : pc = 1 ∨ MULTIPART_MIN_PART_SIZE ≤ cs) :
    ∃ l, calculate_parts_info fs pc cs = .ok l ∧
      l.length = pc ∧
      (∀ m : Fin l.length, (l.get m).part_number = ((m : Nat) : Int) + 1 ∧
        (l.get m).start = ((m : Nat) : Int) * cs) ∧
      (∀ m : Fin l.length, (m : Nat) ≠ pc - 1 → (l.get m).size = cs) ∧
      (∀ m : Fin l.length, (m : Nat) = pc - 1 → (l.get m).size = fs - ((pc : Int) - 1) * cs) ∧
      (l.map PartInfo.size).sum = fs := by
  have hgood : ∀ j, 0 ≤ j → j < pc →
      0 < sizeAt fs cs pc j ∧ (j ≠ pc - 1 → MULTIPART_MIN_PART_SIZE ≤ sizeAt fs cs pc j) := by
    intro j _ hjpc
    by_cases hj : j = pc - 1
    · have hcast : (j : Int) = (pc : Int) - 1 := by omega
      constructor
      · simp only [sizeAt, if_pos hj, hcast]
        linarith
      · intro hne
        exact absurd hj hne
    · constructor
      · simp only [sizeAt, if_neg hj]
        exact hcs
      · intro _
        simp only [sizeAt, if_neg hj]
        rcases hmin with h1 | h2
        · omega
        · exact h2
  have hok : calculate_parts_info fs pc cs = .ok (planSpec fs cs pc) := by
    unfold calculate_parts_info
    rw [if_neg (by omega)]
    rw [calcParts_ok fs cs pc pc 0 (by omega) (fun j hj1 hj2 => hgood j (by omega) hj2)]
    unfold planSpec
    rw [List.range_eq_range']
  refine ⟨planSpec fs cs pc, hok, by simp [planSpec], ?_, ?_, ?_, planSpec_sum fs cs pc hpc⟩
  · intro m
    constructor
    · simp [planSpec, List.get_eq_getElem, List.getElem_map, List.getElem_range]
    · simp [planSpec, List.get_eq_getElem, List.getElem_map, List.getElem_range]
  · intro m hm
    simp [planSpec, List.get_eq_getElem, List.getElem_map, List.getElem_range, sizeAt, hm]
  · intro m hm
    have hmlt : (m : Nat) < pc := by
      have := m.isLt
      simpa [planSpec] using this
    have hcast : (((m : Nat) : Nat) : Int) = (pc : Int) - 1 := by omega
    simp only [planSpec, List.get_eq_getElem, List.getElem_map, List.getElem_range, sizeAt,
      if_pos hm]
    rw [hcast]

/-- Claim C3 witness: the amended theorem applied at the concrete inputs
`fileSize = 12_000_000`, `partCount = 3`, `chunkSize = 5_242_880`. -/
theorem claim_C3_witness :
    ∃ l, calculate_parts_info 12000000 3 5242880 = .ok l ∧
      l.length = 3 ∧
      (∀ m : Fin l.length, (l.get m).part_number = ((m : Nat) : Int) + 1 ∧
        (l.get m).start = ((m : Nat) : Int) * 5242880) ∧
      (∀ m : Fin l.length, (m : Nat) ≠ 3 - 1 → (l.get m).size = 5242880) ∧
      (∀ m : Fin l.length, (m : Nat) = 3 - 1 →
        (l.get m).size = 12000000 - (((3 : Nat) : Int) - 1) * 5242880) ∧
      (l.map PartInfo.size).sum = 12000000 :=
  claim_C3_partition 12000000 5242880 3 (by decide) (by decide) (by decide) (by decide)
    (by decide) (Or.inr (by decide))

/-- Claim C6: `MULTIPART_MIN_PART_SIZE` is 5 MiB = 5,242,880 bytes;
whenever a non-last part's computed size (which is always `chunk_size`,
possible only when `num_parts ≥ 2`) is below it, `calculate_parts_info`
raises a fatal planning error (this pure function has no side effects and
runs before any network call); a successfully returned plan never contains
a non-last part (one with `part_number ≠ num_parts`) below the minimum;
and a last part below the minimum is permitted, witnessed by a concrete
plan whose 1,514,240-byte last part does not raise. -/
theorem claim_C6_min_size (fs cs : Int) (pc : Nat) :
    MULTIPART_MIN_PART_SIZE = 5242880 ∧
    (2 ≤ pc → cs < MULTIPART_MIN_PART_SIZE → ∃ e, calculate_parts_info fs pc cs = .error e) ∧
    (∀ l, calculate_parts_info fs pc cs = .ok l →
      ∀ p ∈ l, p.part_number ≠ (pc : Int) → MULTIPART_MIN_PART_SIZE ≤ p.size) ∧
    (∃ l, calculate_parts_info 10485760 2 5242880 = .ok l ∧
      l.getLast? = some ⟨2, 5242880, 5242880⟩ ∧
      calculate_parts_info 10485759 2 5242880 =
        .ok [⟨1, 0, 5242880⟩, ⟨2, 5242880, 5242879⟩] ∧
      (5242879 : Int) < MULTIPART_MIN_PART_SIZE) := by
  refine ⟨by decide, ?_, ?_, ?_⟩
  · intro hpc hcs
    unfold calculate_parts_info
    rw [if_neg (by omega)]
    apply calcParts_error fs cs pc pc 0 (by omega)
    refine ⟨0, le_refl 0, by omega, ?_⟩
    by_cases h0 : (0 : Nat) = pc - 1
    · omega
    · right
      refine ⟨h0, ?_⟩
      simp only [sizeAt, if_neg h0]
      exact hcs
  · intro l hl p hp
    unfold calculate_parts_info at hl
    rw [if_neg] at hl
    · exact fun hpn => (calcParts_ok_inv fs cs pc pc 0 l (by omega) hl p hp).2 hpn
    · rintro rfl
      simp at hl
      subst hl
      simp at hp
  · exact ⟨[⟨1, 0, 5242880⟩, ⟨2, 5242880, 5242880⟩], by decide, by decide, by decide, by decide⟩

/-- Claim C6 witness: the error branch of the theorem applied at the
concrete inputs `fileSize = 150`, `partCount = 2`, `chunkSize = 100`. -/
theorem claim_C6_witness :
    2 ≤ (2 : Nat) ∧ (100 : Int) < MULTIPART_MIN_PART_SIZE ∧
    ∃ e, calculate_parts_info 150 2 100 = .error e :=
  ⟨by decide, by decide, (claim_C6_min_size 150 100 2).2.1 (by decide) (by decide)⟩

/-- Claim C8, counterexample: with the claim's inputs (file 12,000,000
bytes, `partCount = 3`, `chunkSize = 5,000,000`) `calculate_parts_info`
does not return the claimed three parts: 5,000,000 is below the 5 MiB
minimum (5,242,880), so the very first (non-last) part raises the
minimum-part-size planning error. -/
theorem claim_C8_counterexample :
    calculate_parts_info 12000000 3 5000000 = .error (.belowMin 1 5000000) ∧
    (5000000 : Int) < MULTIPART_MIN_PART_SIZE := by decide

/-- Claim C8 (amended: the chunk size must be at least the 5 MiB minimum
for the non-last parts to be legal, so `chunkSize = 5,242,880` replaces
the claimed `5,000,000`, which raises): for a 12,000,000-byte file with
`partCount = 3` and `chunkSize = 5,242,880`, `calculate_parts_info`
returns without raising the three parts `(1, 0, 5242880)`,
`(2, 5242880, 5242880)`, `(3, 10485760, 1514240)`; the last part is below
the minimum and, being last, is legal and does not raise. -/
theorem claim_C8_plan :
    calculate_parts_info 12000000 3 5242880 =
      .ok [⟨1, 0, 5242880⟩, ⟨2, 5242880, 5242880⟩, ⟨3, 10485760, 1514240⟩] ∧
    (1514240 : Int) < MULTIPART_MIN_PART_SIZE := by decide

/-- Claim C9: for every `partCount ≥ 1`, whenever some computed part size
is zero or negative — the last part's size `fileSize - (partCount-1)*chunkSize`
whenever `fileSize ≤ (partCount-1)*chunkSize`, or every non-last part's
size `chunkSize` when `partCount ≥ 2` and `chunkSize ≤ 0` —
`calculate_parts_info` raises a fatal planning error; in particular a
zero-size last part is never silently accepted. -/
theorem claim_C9_nonpositive_size (fs cs : Int) (pc : Nat) (hpc : 1 ≤ pc)
    (h : fs ≤ ((pc : Int) - 1) * cs ∨ (2 ≤ pc ∧ cs ≤ 0)) :
    ∃ e, calculate_parts_info fs pc cs = .error e := by
  unfold calculate_parts_info
  rw [if_neg (by omega)]
  apply calcParts_error fs cs pc pc 0 (by omega)
  rcases h with h1 | ⟨h2, h3⟩
  · refine ⟨pc - 1, by omega, by omega, Or.inl ?_⟩
    have hcast : ((pc - 1 : Nat) : Int) = (pc : Int) - 1 := by omega
    have hsz : sizeAt fs cs pc (pc - 1) = fs - ((pc : Int) - 1) * cs := by
      simp [sizeAt, hcast]
    rw [hsz]
    linarith
  · refine ⟨0, le_refl 0, by omega, ?_⟩
    have h0 : (0 : Nat) ≠ pc - 1 := by omega
    refine Or.inl ?_
    simp only [sizeAt, if_neg h0]
    exact h3

/-- Claim C9 witness: a file of 10 bytes with 2 parts of chunk size 10
makes the last part's size zero, and the planner raises. -/
theorem claim_C9_witness :
    1 ≤ (2 : Nat) ∧ ((10 : Int) ≤ (((2 : Nat) : Int) - 1) * 10) ∧
    ∃ e, calculate_parts_info 10 2 10 = .error e :=
  ⟨by decide, by decide, claim_C9_nonpositive_size 10 10 2 (by decide) (Or.inl (by decide))⟩

/-! ## Retry-loop lemmas and claims -/

/-- Loop invariant for all-retryable outcomes: starting at attempt `i`
with `rem` of the `mr` attempts remaining, the loop performs exactly `rem`
further attempts, sleeps `DEFAULT_RETRY_BACKOFF_FACTOR * 2 ^ a` after each
attempt `a` except the final one, and raises the error determined by the
final attempt's outcome. -/
lemma uploadLoop_all_retryable (outcomes : Nat → TransportOutcome) (pn : Int) (mr : Nat) :
    ∀ rem i, i + rem = mr → 0 < rem →
      (∀ j, i ≤ j → j < mr → retryableOutcome (outcomes j) = true) →
      uploadLoop outcomes pn i rem =
        ⟨rem,
         (List.range' i (rem - 1)).map (fun a => DEFAULT_RETRY_BACKOFF_FACTOR * 2 ^ a),
         .error (finalRetryFailure (outcomes (mr - 1)))⟩ := by
  intro rem
  induction rem with
  | zero => omega
  | succ rem ih =>
    intro i hi _ hretry
    have hlast : i + rem = mr - 1 := by omega
    have hri := hretry i (le_refl i) (by omega)
    rcases rem.eq_zero_or_pos with rfl | hpos
    · have hii : i = mr - 1 := by omega
      cases ho : outcomes i with
      | response status etagHeader =>
        simp only [retryableOutcome, ho] at hri
        simp only [uploadLoop, ho, if_pos hri]
        rw [if_neg (Nat.lt_irrefl 0)]
        rw [hii] at ho
        simp [finalRetryFailure, ho]
      | retryableExc msg =>
        simp only [uploadLoop, ho]
        rw [if_neg (Nat.lt_irrefl 0)]
        rw [hii] at ho
        simp [finalRetryFailure, ho]
      | fatalExc msg =>
        simp only [retryableOutcome, ho] at hri
        cases hri
    · have hrec := ih (i + 1) (by omega) hpos (fun j hj1 hj2 => hretry j (by omega) hj2)
      have hrange : List.range' i (rem + 1 - 1) = i :: List.range' (i + 1) (rem - 1) := by
        have : rem + 1 - 1 = (rem - 1) + 1 := by omega
        rw [this, List.range'_succ]
      cases ho : outcomes i with
      | response status etagHeader =>
        simp only [retryableOutcome, ho] at hri
        simp only [uploadLoop, ho, if_pos hri, if_pos hpos, hrec]
        rw [hrange]
        simp
      | retryableExc msg =>
        simp only [uploadLoop, ho, if_pos hpos, hrec]
        rw [hrange]
        simp
      | fatalExc msg =>
        simp only [retryableOutcome, ho] at hri
        cases hri

/-- Claim C2: when every one of the `maxRetries ≥ 1` attempts ends in a
retryable outcome (connection error, timeout, chunked-encoding error, or
HTTP 429/502/503/504), exactly `maxRetries` attempts are made before an
exception propagates, the sleep after attempt `a` lasts
`DEFAULT_RETRY_BACKOFF_FACTOR * 2 ^ a` seconds for
`a = 0 .. maxRetries - 2`, and the raised error is the final attempt's
retryable exception, or the invalid-response error for its retryable HTTP
status when no exception occurred. -/
theorem claim_C2_retry_exhaustion (outcomes : Nat → TransportOutcome) (pn : Int)
    (mr : Nat) (hmr : 1 ≤ mr)
    (hretry : ∀ j, j < mr → retryableOutcome (outcomes j) = true) :
    upload_single_part_run outcomes pn mr =
      ⟨mr,
       (List.range (mr - 1)).map (fun a => DEFAULT_RETRY_BACKOFF_FACTOR * 2 ^ a),
       .error (finalRetryFailure (outcomes (mr - 1)))⟩ := by
  unfold upload_single_part_run
  rw [uploadLoop_all_retryable outcomes pn mr mr 0 (by omega) (by omega)
    (fun j _ hj2 => hretry j hj2)]
  rw [List.range_eq_range']

/-- Claim C2 witness: two attempts that both time out produce exactly two
attempts, one backoff sleep of `1 * 2 ^ 0`, and re-raise the timeout. -/
theorem claim_C2_witness :
    1 ≤ 2 ∧
    upload_single_part_run (fun _ => TransportOutcome.retryableExc "timeout") 9 2 =
      ⟨2, [DEFAULT_RETRY_BACKOFF_FACTOR * 2 ^ 0],
       .error (.transportError "timeout")⟩ :=
  ⟨by decide,
   by
    rw [claim_C2_retry_exhaustion (fun _ => TransportOutcome.retryableExc "timeout") 9 2
      (by decide) (fun j _ => rfl)]
    rfl⟩

/-- Claim C5: an attempt that receives a non-retryable, non-200 HTTP
status (for example 403), or a 200 response whose `ETag` header is missing
or empty after stripping surrounding quotes, makes the function raise on
the first attempt with zero retries and no backoff sleep. -/
theorem claim_C5_terminal_no_retry (outcomes : Nat → TransportOutcome) (pn : Int)
    (mr : Nat) (status : Nat) (etagHeader : Option String) (hmr : 1 ≤ mr)
    (h0 : outcomes 0 = .response status etagHeader)
    (hterm : (isRetryableStatus status = false ∧ status ≠ 200) ∨
      (status = 200 ∧ stripQuotes (etagHeader.getD "") = "")) :
    upload_single_part_run outcomes pn mr =
      ⟨1, [], .error (if status = 200 then .missingEtag else .invalidResponse status)⟩ := by
  obtain ⟨k, rfl⟩ : ∃ k, mr = k + 1 := ⟨mr - 1, by omega⟩
  unfold upload_single_part_run
  rcases hterm with ⟨hretry, h200⟩ | ⟨h200, hetag⟩
  · simp only [uploadLoop, h0, hretry, Bool.false_eq_true, if_false, if_pos h200]
    rw [if_neg h200]
  · subst h200
    simp only [uploadLoop, h0]
    rw [if_neg (by decide), if_neg (by omega), if_pos hetag]
    simp

/-- Claim C5 witness: a 403 on the first attempt raises the
invalid-response error with one attempt and no sleeps, despite
`maxRetries = 5`. -/
theorem claim_C5_witness :
    1 ≤ 5 ∧
    upload_single_part_run (fun _ => TransportOutcome.response 403 none) 4 5 =
      ⟨1, [], .error (.invalidResponse 403)⟩ :=
  ⟨by decide,
   by
    rw [claim_C5_terminal_no_retry (fun _ => TransportOutcome.response 403 none) 4 5 403 none
      (by decide) rfl (Or.inl ⟨by decide, by decide⟩)]
    rfl⟩

/-! ## Parallel-collection claim -/

/-- When every future succeeds, the collection loop gathers exactly the
per-part results in completion order, with no recorded failures. -/
lemma collectCompleted_all_ok (results : List (Int × UploadedPart)) :
    collectCompleted (results.map fun pr => (pr.1, Except.ok pr.2)) =
      (results.map Prod.snd, []) := by
  induction results with
  | nil => rfl
  | cons hd tl ih => simp [collectCompleted, ih]

/-- Claim C4: for every successful multi-part upload, whatever completion
order the concurrently executed part uploads finish in, the list returned
by the parallel path of `upload_parts_to_s3` — and hence the `parts`
payload passed to the complete-upload call — is sorted in ascending
`part_number` order and is a permutation of the individual per-part
results. -/
theorem claim_C4_sorted_completion (results : List (Int × UploadedPart)) :
    ∃ out,
      upload_parts_to_s3_parallel (results.map fun pr => (pr.1, Except.ok pr.2)) = .ok out ∧
      List.Sorted partNumberLE out ∧
      out.Perm (results.map Prod.snd) ∧
      (complete_multipart_upload_payload out).parts = out := by
  refine ⟨(results.map Prod.snd).insertionSort partNumberLE, ?_, ?_, ?_, rfl⟩
  · unfold upload_parts_to_s3_parallel
    rw [collectCompleted_all_ok]
    simp
  · exact List.sorted_insertionSort partNumberLE (results.map Prod.snd)
  · exact List.perm_insertionSort partNumberLE (results.map Prod.snd)

/-! ## Coordinator claims -/

/-- Claim C1: whenever the start-upload call succeeded and returned a
(truthy) `upload_id`, and any later step fails — missing presigned URLs,
the planner raising, any part upload failing, or the complete-upload call
failing — `upload_image` invokes abort-upload exactly once, issues no
backend call (in particular no complete-upload call) after the failure
since abort is the final call of the trace, re-raises the original
exception unchanged regardless of the abort call's own outcome, and any
exception or non-204 status during the abort itself is surfaced only as a
warning. -/
theorem claim_C1_abort_on_failure (fs : Int) (d : StartUploadData)
    (s3 : Except (List (Int × String)) (List UploadedPart)) (comp : Except String Unit)
    (ab ab2 : Except String Nat)
    (hid : truthyId d.upload_id = true)
    (hfail : d.part_urls = [] ∨
      (calculate_parts_info fs d.part_urls.length
        (d.chunk_size.getD MULTIPART_CHUNK_SIZE)).isOk = false ∨
      s3.isOk = false ∨ comp.isOk = false) :
    ((upload_image_run fs (.ok d) s3 comp ab).calls.count .abortUpload = 1) ∧
    ((upload_image_run fs (.ok d) s3 comp ab).calls.getLast? = some .abortUpload) ∧
    (∃ e, (upload_image_run fs (.ok d) s3 comp ab).result = .error e ∧
      (upload_image_run fs (.ok d) s3 comp ab2).result = .error e) ∧
    ((upload_image_run fs (.ok d) s3 comp ab).warnings =
      abort_multipart_upload_warnings ab) := by
  by_cases hurls : d.part_urls = []
  · simp [upload_image_run, hid, hurls]
  · cases hplan : calculate_parts_info fs d.part_urls.length
        (d.chunk_size.getD MULTIPART_CHUNK_SIZE) with
    | error e =>
      simp [upload_image_run, hid, hurls, hplan]
    | ok parts =>
      cases hs3 : s3 with
      | error failed =>
        simp [upload_image_run, hid, hurls, hplan]
      | ok uploaded =>
        cases hcomp : comp with
        | error msg =>
          simp [upload_image_run, hid, hurls, hplan, hs3]
        | ok u =>
          exfalso
          rcases hfail with h | h | h | h
          · exact hurls h
          · rw [hplan] at h
            simp [Except.isOk, Except.toBool] at h
          · rw [hs3] at h
            simp [Except.isOk, Except.toBool] at h
          · rw [hcomp] at h
            simp [Except.isOk, Except.toBool] at h

/-- Claim C1 witness: a failing part upload (with the abort PATCH itself
failing) still aborts exactly once, ends the trace on the abort, and
re-raises the aggregated part failure, with one warning for the failed
abort. -/
theorem claim_C1_witness :
    truthyId (some "sid") = true ∧
    ((upload_image_run 100 (.ok ⟨some "sid", ["u1"], some 100⟩)
        (.error [(1, "conn")]) (.ok ()) (.error "net")).calls.count .abortUpload = 1) ∧
    ((upload_image_run 100 (.ok ⟨some "sid", ["u1"], some 100⟩)
        (.error [(1, "conn")]) (.ok ()) (.error "net")).calls.getLast? =
      some .abortUpload) ∧
    (∃ e, (upload_image_run 100 (.ok ⟨some "sid", ["u1"], some 100⟩)
        (.error [(1, "conn")]) (.ok ()) (.error "net")).result = .error e ∧
      (upload_image_run 100 (.ok ⟨some "sid", ["u1"], some 100⟩)
        (.error [(1, "conn")]) (.ok ()) (.ok 204)).result = .error e) ∧
    ((upload_image_run 100 (.ok ⟨some "sid", ["u1"], some 100⟩)
        (.error [(1, "conn")]) (.ok ()) (.error "net")).warnings =
      abort_multipart_upload_warnings (.error "net")) :=
  ⟨rfl,
   claim_C1_abort_on_failure 100 ⟨some "sid", ["u1"], some 100⟩ (.error [(1, "conn")])
     (.ok ()) (.error "net") (.ok 204) rfl (Or.inr (Or.inr (Or.inl rfl)))⟩

/-- Claim C7, counterexample: when the start-upload response has a valid
`upload_id` but an empty presigned-URL list, `upload_image` raises the
session-protocol error, yet — contrary to the claim — an abort-upload
cleanup call is attempted, because the `part_urls` check sits inside the
cleanup-protected block. -/
theorem claim_C7_counterexample :
    (upload_image_run 100 (.ok ⟨some "sid", [], some 100⟩) (.ok []) (.ok ())
        (.ok 204)).result = .error .missingPartUrls ∧
    BackendCall.abortUpload ∈
      (upload_image_run 100 (.ok ⟨some "sid", [], some 100⟩) (.ok []) (.ok ())
        (.ok 204)).calls := by decide

/-- Claim C7 (amended: only the missing session id is surfaced without
cleanup; a missing presigned-URL list raises the session-protocol error
after an abort-upload cleanup call is attempted, since that check runs
inside the cleanup-protected block): if the start-upload response lacks a
truthy `upload_id`, `upload_image` raises immediately with no abort call;
if the `upload_id` is present but the presigned-URL list is empty, it
raises the session-protocol error with exactly one preceding abort
call. -/
theorem claim_C7_session_protocol (fs : Int) (d : StartUploadData)
    (s3 : Except (List (Int × String)) (List UploadedPart)) (comp : Except String Unit)
    (ab : Except String Nat) :
    (truthyId d.upload_id = false →
      upload_image_run fs (.ok d) s3 comp ab =
        ⟨[.startUpload], 0, .error .missingUploadId⟩) ∧
    (truthyId d.upload_id = true → d.part_urls = [] →
      (upload_image_run fs (.ok d) s3 comp ab).result = .error .missingPartUrls ∧
      (upload_image_run fs (.ok d) s3 comp ab).calls = [.startUpload, .abortUpload]) := by
  constructor
  · intro hid
    simp [upload_image_run, hid]
  · intro hid hurls
    simp [upload_image_run, hid, hurls]

/-- Claim C7 witness: the amended theorem applied at concrete inputs for
both branches (missing `upload_id`, and present `upload_id` with empty
URL list). -/
theorem claim_C7_witness :
    (upload_image_run 10 (.ok ⟨none, ["u"], none⟩) (.ok []) (.ok ()) (.ok 204) =
      ⟨[.startUpload], 0, .error .missingUploadId⟩) ∧
    ((upload_image_run 10 (.ok ⟨some "sid", [], none⟩) (.ok []) (.ok ()) (.ok 204)).result =
      .error .missingPartUrls ∧
      (upload_image_run 10 (.ok ⟨some "sid", [], none⟩) (.ok []) (.ok ())
        (.ok 204)).calls = [.startUpload, .abortUpload]) :=
  ⟨(claim_C7_session_protocol 10 ⟨none, ["u"], none⟩ (.ok []) (.ok ()) (.ok 204)).1 rfl,
   (claim_C7_session_protocol 10 ⟨some "sid", [], none⟩ (.ok []) (.ok ()) (.ok 204)).2
     rfl rfl⟩

/-! ## File-part-reader lemmas and claim -/

/-- A `read` on an exhausted window returns the empty byte string and
leaves the reader unchanged. -/
lemma FilePartReader.read_exhausted (r : FilePartReader) (c : Int)
    (h : r.remaining ≤ 0) : r.read c = ([], r) := by
  unfold FilePartReader.read
  rw [if_pos h]


/-- A `read` on a non-exhausted window returns the next clamped chunk of
the file and advances the cursor and `remaining` by its length. -/
lemma FilePartReader.read_active (r : FilePartReader) (c : Int)
    (h : ¬r.remaining ≤ 0) :
    r.read c =
      ((r.file.drop r.pos).take (if c < 0 then r.remaining else min c r.remaining).toNat,
       { r with
         pos := r.pos +
           ((r.file.drop r.pos).take
             (if c < 0 then r.remaining else min c r.remaining).toNat).length
         remaining := r.remaining -
           ((r.file.drop r.pos).take
             (if c < 0 then r.remaining else min c r.remaining).toNat).length }) := by
  unfold FilePartReader.read
  rw [if_neg h]

/-- Core invariant of the reader: started at offset `start + k` with
`size - k` bytes remaining inside a file long enough for the whole window,
any sequence of `read` calls returns a prefix of the rest of the planned
window, advancing the cursor and `remaining` in lockstep; and if any
requested chunk size is negative (Python's read-the-rest call), the window
is fully drained. -/
lemma FilePartReader.readAll_spec (file : List Nat) (start : Nat) (size : Int)
    (h0 : 0 ≤ size) (hlen : start + size.toNat ≤ file.length) :
    ∀ (args : List Int) (k : Nat), k ≤ size.toNat →
      ∃ m, k + m ≤ size.toNat ∧
        FilePartReader.readAll ⟨file, size, start + k, size - (k : Int)⟩ args =
          ((((file.drop start).take size.toNat).drop k).take m,
           ⟨file, size, start + (k + m), size - ((k + m : Nat) : Int)⟩) ∧
        (args.any (fun c => c < 0) = true → k + m = size.toNat) := by
  intro args
  induction args with
  | nil =>
    intro k hk
    refine ⟨0, by omega, ?_, by simp⟩
    simp only [FilePartReader.readAll, Nat.add_zero, List.take_zero]
  | cons c cs ih =>
    intro k hk
    by_cases hrem : size - (k : Int) ≤ 0
    · have hks : k = size.toNat := by omega
      obtain ⟨m, hm1, hm2, hm3⟩ := ih k hk
      have hm0 : m = 0 := by omega
      subst hm0
      refine ⟨0, by omega, ?_, fun _ => by omega⟩
      simp only [FilePartReader.readAll]
      rw [FilePartReader.read_exhausted _ c hrem]
      dsimp only
      rw [hm2]
      dsimp only
      simp
    · have hchunk_le : (if c < 0 then size - (k : Int) else min c (size - (k : Int))).toNat ≤
          size.toNat - k := by
        rcases lt_or_le c 0 with hc | hc
        · rw [if_pos hc]
          omega
        · rw [if_neg (not_lt.mpr hc)]
          rcases le_total c (size - (k : Int)) with h | h
          · rw [min_eq_left h]
            omega
          · rw [min_eq_right h]
            omega
      obtain ⟨d, hD⟩ : ∃ d, (if c < 0 then size - (k : Int) else
          min c (size - (k : Int))).toNat = d := ⟨_, rfl⟩
      have hd_le : d ≤ size.toNat - k := hD ▸ hchunk_le
      have hdata_len : ((file.drop (start + k)).take d).length = d := by
        rw [List.length_take, List.length_drop]
        omega
      obtain ⟨m, hm1, hm2, hm3⟩ := ih (k + d) (by omega)
      refine ⟨d + m, by omega, ?_, ?_⟩
      · simp only [FilePartReader.readAll]
        rw [FilePartReader.read_active _ c hrem]
        dsimp only
        rw [hD, hdata_len]
        have hpos : start + k + d = start + (k + d) := by omega
        have hremNew : size - (k : Int) - (d : Int) = size - ((k + d : Nat) : Int) := by
          push_cast
          ring
        rw [hpos, hremNew, hm2]
        dsimp only
        have hwindow : (file.drop (start + k)).take d =
            (((file.drop start).take size.toNat).drop k).take d := by
          rw [List.drop_take, List.drop_drop, List.take_take]
          congr 1
          omega
        have hdrop : ((file.drop start).take size.toNat).drop (k + d) =
            ((((file.drop start).take size.toNat).drop k).drop d) := by
          rw [List.drop_drop]
        rw [hwindow, hdrop, ← List.take_add]
        have h1 : start + (k + d + m) = start + (k + (d + m)) := by omega
        have h2 : size - ((k + d + m : Nat) : Int) = size - ((k + (d + m) : Nat) : Int) := by
          push_cast
          ring
        rw [h1, h2]
      · intro hany
        simp only [List.any_cons, Bool.or_eq_true] at hany
        rcases hany with hc | hcs
        · have hc' : c < 0 := by simpa using hc
          have hdfull : d = size.toNat - k := by
            rw [← hD, if_pos hc']
            omega
          omega
        · have := hm3 hcs
          omega

/-- Claim C10: for a `FilePartReader(file, start, size)` entered over a
file holding at least `start + size` bytes, and any sequence of `read`
chunk-size arguments: the cumulative bytes returned never exceed `size`
and are exactly the corresponding prefix of the planned byte window
`file[start : start + size]`; when the window is drained the cumulative
bytes equal exactly `size` (in particular appending one Python
`read(-1) = read()`-style call always drains it); `read` after exhaustion
returns the empty byte string; and `len(reader)` returns `size`
throughout. -/
theorem claim_C10_reader (file : List Nat) (start : Nat) (size : Int) (args : List Int)
    (h0 : 0 ≤ size) (hlen : start + size.toNat ≤ file.length) :
    (((FilePartReader.enter file start size).readAll args).1.length ≤ size.toNat) ∧
    (((FilePartReader.enter file start size).readAll args).1 =
      ((file.drop start).take size.toNat).take
        ((FilePartReader.enter file start size).readAll args).1.length) ∧
    (((FilePartReader.enter file start size).readAll args).2.remaining = 0 →
      ((FilePartReader.enter file start size).readAll args).1.length = size.toNat) ∧
    (((FilePartReader.enter file start size).readAll (args ++ [-1])).1.length = size.toNat) ∧
    (∀ c, ((FilePartReader.enter file start size).readAll args).2.remaining ≤ 0 →
      (((FilePartReader.enter file start size).readAll args).2.read c).1 = []) ∧
    (((FilePartReader.enter file start size).readAll args).2.lenField = size) := by
  have hzero : FilePartReader.enter file start size =
      (⟨file, size, start + 0, size - ((0 : Nat) : Int)⟩ : FilePartReader) := by
    simp [FilePartReader.enter]
  have hwlen : ((file.drop start).take size.toNat).length = size.toNat := by
    rw [List.length_take, List.length_drop]
    omega
  obtain ⟨m, hm1, hm2, hm3⟩ :=
    FilePartReader.readAll_spec file start size h0 hlen args 0 (by omega)
  obtain ⟨m2, hm21, hm22, hm23⟩ :=
    FilePartReader.readAll_spec file start size h0 hlen (args ++ [-1]) 0 (by omega)
  have hm2full : 0 + m2 = size.toNat := by
    apply hm23
    simp [List.any_append]
  rw [hzero, hm2, hm22]
  dsimp only
  have houtlen : (((((file.drop start).take size.toNat).drop 0).take m)).length = m := by
    rw [List.drop_zero, List.length_take]
    omega
  refine ⟨?_, ?_, ?_, ?_, ?_, rfl⟩
  · rw [houtlen]
    omega
  · rw [houtlen, List.drop_zero]
  · intro hrem
    have : (0 + m : Nat) = size.toNat := by omega
    rw [houtlen]
    omega
  · rw [List.drop_zero, List.length_take]
    omega
  · intro c hc
    rw [FilePartReader.read_exhausted _ c hc]

/-- Claim C10 witness: the theorem applied to a three-byte file, window
`[1, 3)`, and a single `read(1)` call. -/
theorem claim_C10_witness :
    ((0 : Int) ≤ 2 ∧ 1 + (2 : Int).toNat ≤ ([9, 9, 9] : List Nat).length) ∧
    ((((FilePartReader.enter [9, 9, 9] 1 2).readAll [1]).1.length ≤ (2 : Int).toNat) ∧
     (((FilePartReader.enter [9, 9, 9] 1 2).readAll [1]).1 =
       ((([9, 9, 9] : List Nat).drop 1).take (2 : Int).toNat).take
         ((FilePartReader.enter [9, 9, 9] 1 2).readAll [1]).1.length) ∧
     (((FilePartReader.enter [9, 9, 9] 1 2).readAll [1]).2.remaining = 0 →
       ((FilePartReader.enter [9, 9, 9] 1 2).readAll [1]).1.length = (2 : Int).toNat) ∧
     (((FilePartReader.enter [9, 9, 9] 1 2).readAll ([1] ++ [-1])).1.length =
       (2 : Int).toNat) ∧
     (∀ c, ((FilePartReader.enter [9, 9, 9] 1 2).readAll [1]).2.remaining ≤ 0 →
       (((FilePartReader.enter [9, 9, 9] 1 2).readAll [1]).2.read c).1 = []) ∧
     (((FilePartReader.enter [9, 9, 9] 1 2).readAll [1]).2.lenField = 2)) :=
  ⟨⟨by decide, by decide⟩,
   claim_C10_reader [9, 9, 9] 1 2 [1] (by decide) (by decide)⟩
